import Mathlib

/-!
Verification of the two algorithmic cores of the image-compressor repository:
the target-size compression search (`compressImage` / `tryCompress` in the
compressor component) and the crop/rotate/resize geometry
(`ImageCropper.tsx` and the second cropper source).

Numbers are modelled as rationals (the source works with JS numbers and
the claims are not about floating-point rounding); byte counts are
naturals; a blob is identified with its byte size.  `canvas.toBlob`
passing `null` to its callback is modelled by the encoder returning
`none`; in that case `tryCompress` in the source returns without resolving
the promise, which we record as `resolved = none`.
-/

set_option maxRecDepth 16384

/-- The number of encoded bytes of a blob (a blob is observed only through
`blob.size` in the source). -/
abbrev Blob := ℕ

/-- Constant `maxAttempts` from `compressImage`. -/
def maxAttempts : ℕ := 10

/-- Outcome of one run of the `tryCompress` recursion: the blob the
promise resolved with (`none` when the callback received no blob and the
promise was left pending), the tracked `bestBlob` at the end of the run,
and the number of encoder (`canvas.toBlob`) invocations. -/
structure SearchResult where
  resolved : Option Blob
  best : Option Blob
  calls : ℕ
deriving DecidableEq, Repr

/-- Account for one more encoder invocation around a recursive run. -/
def bump (r : SearchResult) : SearchResult := ⟨r.resolved, r.best, r.calls + 1⟩

/-- Function `tryCompress` from `compressImage`, with the attempt counter
replaced by the remaining budget `remaining = maxAttempts - attempts`
(the guard `attempts >= maxAttempts` of the source is exactly `remaining = 0`,
and `attempts++` is exactly the decrement).  Each invocation performs one
encode; `sizeKB = blob.size / 1024`; the tolerance check
`|sizeKB - targetKB| <= targetKB * 0.1` resolves immediately, as does an
exhausted budget; otherwise the bracket is narrowed exactly as in the
source and the search recurses at the midpoint. -/
def tryCompress (encode : ℚ → Option Blob) (target : ℚ) (remaining : ℕ)
    (minQ maxQ : ℚ) (best : Option Blob) (quality : ℚ) : SearchResult :=
  match encode quality with
  | none => ⟨none, best, 1⟩
  | some blob =>
    let sizeKB : ℚ := (blob : ℚ) / 1024
    if |sizeKB - target| ≤ target * (1/10) then
      ⟨some blob, best, 1⟩
    else
      match remaining with
      | 0 => ⟨some blob, best, 1⟩
      | r + 1 =>
        if target < sizeKB then
          bump (tryCompress encode target r minQ quality best ((minQ + quality) / 2))
        else
          bump (tryCompress encode target r quality maxQ (some blob) ((quality + maxQ) / 2))

/-- The pre-search downscale in `compressImage`: images larger than 1920
in either dimension are scaled so the larger dimension becomes 1920. -/
def resizeDims (w h : ℚ) : ℚ × ℚ :=
  if 1920 < w ∨ 1920 < h then
    if h < w then (1920, h * 1920 / w)
    else (w * 1920 / h, 1920)
  else (w, h)

/-- Function `compressImage`: draw the (possibly downscaled) image to a canvas,
then run the quality search from the initial quality of the settings with
bracket `[0.1, 1.0]`, no best blob yet and a fresh attempt counter.  The
encoder is abstracted as a function of the canvas dimensions and the
quality. -/
def compressImage (encodeAt : ℚ × ℚ → ℚ → Option Blob) (w h : ℚ)
    (target initQ : ℚ) : SearchResult :=
  tryCompress (encodeAt (resizeDims w h)) target maxAttempts (1/10) 1 none initQ

/-- Function `handleCompress`: images are compressed sequentially, each awaited
before the next.  A run whose promise never resolves (null blob from the
encoder) blocks the `await`, so no later image is reached; a resolved
blob is recorded and the loop continues. -/
def handleCompress (encodeAt : ℚ × ℚ → ℚ → Option Blob) (target initQ : ℚ) :
    List (ℚ × ℚ) → List Blob
  | [] => []
  | img :: rest =>
    match (compressImage encodeAt img.1 img.2 target initQ).resolved with
    | none => []
    | some blob => blob :: handleCompress encodeAt target initQ rest

/-- The crop rectangle (`CropArea` in `ImageCropper.tsx`), in display
(canvas) coordinates. -/
structure CropArea where
  x : ℚ
  y : ℚ
  width : ℚ
  height : ℚ
deriving DecidableEq, Repr

/-- The eight resize handles (`ResizeHandle`). -/
inductive Handle
  | nw | ne | sw | se | n | s | e | w
deriving DecidableEq, Repr

/-- The `isResizing` branch of `handleMouseMove`: the `switch` on the
active handle, translated case by case. -/
def applyResize (canW canH : ℚ) (hd : Handle) (prev : CropArea)
    (dX dY : ℚ) : CropArea :=
  match hd with
  | .nw =>
    { x := max 0 (min (prev.x + dX) (prev.x + prev.width - 50)),
      y := max 0 (min (prev.y + dY) (prev.y + prev.height - 50)),
      width := max 50 (prev.width - dX),
      height := max 50 (prev.height - dY) }
  | .ne =>
    { prev with
      y := max 0 (min (prev.y + dY) (prev.y + prev.height - 50)),
      width := max 50 (min (prev.width + dX) (canW - prev.x)),
      height := max 50 (prev.height - dY) }
  | .sw =>
    { prev with
      x := max 0 (min (prev.x + dX) (prev.x + prev.width - 50)),
      width := max 50 (prev.width - dX),
      height := max 50 (min (prev.height + dY) (canH - prev.y)) }
  | .se =>
    { prev with
      width := max 50 (min (prev.width + dX) (canW - prev.x)),
      height := max 50 (min (prev.height + dY) (canH - prev.y)) }
  | .n =>
    { prev with
      y := max 0 (min (prev.y + dY) (prev.y + prev.height - 50)),
      height := max 50 (prev.height - dY) }
  | .s =>
    { prev with height := max 50 (min (prev.height + dY) (canH - prev.y)) }
  | .e =>
    { prev with width := max 50 (min (prev.width + dX) (canW - prev.x)) }
  | .w =>
    { prev with
      x := max 0 (min (prev.x + dX) (prev.x + prev.width - 50)),
      width := max 50 (prev.width - dX) }

/-- The `isDragging` branch of `handleMouseMove`: translate, clamping the
position into the canvas, sizes untouched. -/
def dragMove (canW canH : ℚ) (prev : CropArea) (dX dY : ℚ) : CropArea :=
  { prev with
    x := max 0 (min (prev.x + dX) (canW - prev.width)),
    y := max 0 (min (prev.y + dY) (canH - prev.height)) }

/-- One pointer-move mutation of the crop rectangle: either a resize with
an active handle or a drag. -/
inductive Mutation
  | resize (hd : Handle) (dX dY : ℚ)
  | drag (dX dY : ℚ)

/-- Dispatch of `handleMouseMove` on the interaction mode. -/
def applyMutation (canW canH : ℚ) (r : CropArea) : Mutation → CropArea
  | .resize hd dX dY => applyResize canW canH hd r dX dY
  | .drag dX dY => dragMove canW canH r dX dY

/-- The initial crop rectangle from `img.onload` (also `resetCrop`):
a centered square of side `min(200, canvas.width * 0.5, canvas.height * 0.5)`. -/
def initialCropArea (canW canH : ℚ) : CropArea :=
  let s := min 200 (min (canW * (1/2)) (canH * (1/2)))
  ⟨(canW - s) / 2, (canH - s) / 2, s, s⟩

/-- The display scale from `img.onload`:
`Math.min(maxWidth / img.width, maxHeight / img.height, 1)` with
`maxWidth = 600`, `maxHeight = 400`. -/
def canvasScale (imgW imgH : ℚ) : ℚ :=
  min (600 / imgW) (min (400 / imgH) 1)

/-- The canvas dimensions set in `img.onload`: the image dimensions times
the display scale. -/
def canvasDims (imgW imgH : ℚ) : ℚ × ℚ :=
  (imgW * canvasScale imgW imgH, imgH * canvasScale imgW imgH)

/-- Predicate `width,height ≥ 50` (the literal `MIN_SIZE` of the spec). -/
def minSized (r : CropArea) : Prop := 50 ≤ r.width ∧ 50 ≤ r.height

/-- The rectangle lies entirely within `[0, canW] × [0, canH]`. -/
def inBounds (canW canH : ℚ) (r : CropArea) : Prop :=
  0 ≤ r.x ∧ 0 ≤ r.y ∧ r.x + r.width ≤ canW ∧ r.y + r.height ≤ canH

/-- The horizontal position clamp of a left-edge resize does not engage:
the moved left edge stays at `x + dX`, i.e. `0 ≤ x + dX` and
`x + dX ≤ x + width - 50`. -/
def noClampX (r : CropArea) (dX : ℚ) : Prop :=
  0 ≤ r.x + dX ∧ dX ≤ r.width - 50

/-- The vertical position clamp of a top-edge resize does not engage. -/
def noClampY (r : CropArea) (dY : ℚ) : Prop :=
  0 ≤ r.y + dY ∧ dY ≤ r.height - 50

/-- For handles that move the left or top edge, the corresponding
position clamp must not engage; the bottom/right-growing handles need no
condition. -/
def resizeSafe (hd : Handle) (r : CropArea) (dX dY : ℚ) : Prop :=
  match hd with
  | .nw => noClampX r dX ∧ noClampY r dY
  | .ne => noClampY r dY
  | .sw => noClampX r dX
  | .se => True
  | .n => noClampY r dY
  | .s => True
  | .e => True
  | .w => noClampX r dX

/-- The edges not controlled by the handle keep exactly their previous
coordinates. -/
def oppositeEdgesFixed (hd : Handle) (r rNew : CropArea) : Prop :=
  match hd with
  | .nw => rNew.x + rNew.width = r.x + r.width
      ∧ rNew.y + rNew.height = r.y + r.height
  | .ne => rNew.x = r.x ∧ rNew.y + rNew.height = r.y + r.height
  | .sw => rNew.x + rNew.width = r.x + r.width ∧ rNew.y = r.y
  | .se => rNew.x = r.x ∧ rNew.y = r.y
  | .n => rNew.x = r.x ∧ rNew.x + rNew.width = r.x + r.width
      ∧ rNew.y + rNew.height = r.y + r.height
  | .s => rNew.x = r.x ∧ rNew.x + rNew.width = r.x + r.width ∧ rNew.y = r.y
  | .e => rNew.x = r.x ∧ rNew.y = r.y ∧ rNew.y + rNew.height = r.y + r.height
  | .w => rNew.x + rNew.width = r.x + r.width ∧ rNew.y = r.y
      ∧ rNew.y + rNew.height = r.y + r.height

/-- Quarter-turn rotations (the only values `rotation` takes). -/
inductive Rot
  | r0 | r90 | r180 | r270
deriving DecidableEq, Repr

/-- JavaScript `Math.round`: half-way values round toward positive
infinity. -/
def jsRound (q : ℚ) : ℤ := ⌊q + 1/2⌋

/-- What a `handleCrop` implementation feeds the drawing surface: the
source-space region passed to `drawImage` and the output (temp canvas)
dimensions. -/
structure CropSpec where
  srcX : ℤ
  srcY : ℤ
  srcW : ℤ
  srcH : ℤ
  outW : ℤ
  outH : ℤ
deriving DecidableEq, Repr

/-- Function `handleCrop` of `ImageCropper.tsx`: scales the crop rectangle into
source space with `Math.round`, sets the temp canvas to
`cropWidth × cropHeight`, and for 90°/270° shifts the source origin; the
region passed to `drawImage` is always `cropWidth × cropHeight`. -/
def tsxCrop (imgW imgH canW canH : ℤ) (r : CropArea) (rot : Rot) : CropSpec :=
  let scaleX : ℚ := (imgW : ℚ) / (canW : ℚ)
  let scaleY : ℚ := (imgH : ℚ) / (canH : ℚ)
  let cropX := jsRound (r.x * scaleX)
  let cropY := jsRound (r.y * scaleY)
  let cropW := jsRound (r.width * scaleX)
  let cropH := jsRound (r.height * scaleY)
  let sx := match rot with
    | .r90 => cropY
    | .r270 => imgH - cropY - cropH
    | _ => cropX
  let sy := match rot with
    | .r90 => imgW - cropX - cropW
    | .r270 => cropX
    | _ => cropY
  ⟨sx, sy, cropW, cropH, cropW, cropH⟩

/-- Function `handleCrop` of the second cropper source: per-rotation source
rectangle `(sx, sy, sw, sh)` with the rounding applied after the
arithmetic, output canvas `sw × sh`, and the region passed to `drawImage`
swapped to `sh × sw` at 90°/270°. -/
def part000Crop (imgW imgH canW canH : ℤ) (r : CropArea) (rot : Rot) :
    CropSpec :=
  let scaleX : ℚ := (imgW : ℚ) / (canW : ℚ)
  let scaleY : ℚ := (imgH : ℚ) / (canH : ℚ)
  match rot with
  | .r0 =>
    ⟨jsRound (r.x * scaleX), jsRound (r.y * scaleY),
     jsRound (r.width * scaleX), jsRound (r.height * scaleY),
     jsRound (r.width * scaleX), jsRound (r.height * scaleY)⟩
  | .r90 =>
    ⟨jsRound (r.y * scaleY), jsRound ((imgW : ℚ) - (r.x + r.width) * scaleX),
     jsRound (r.width * scaleX), jsRound (r.height * scaleY),
     jsRound (r.height * scaleY), jsRound (r.width * scaleX)⟩
  | .r180 =>
    ⟨jsRound ((imgW : ℚ) - (r.x + r.width) * scaleX),
     jsRound ((imgH : ℚ) - (r.y + r.height) * scaleY),
     jsRound (r.width * scaleX), jsRound (r.height * scaleY),
     jsRound (r.width * scaleX), jsRound (r.height * scaleY)⟩
  | .r270 =>
    ⟨jsRound ((imgH : ℚ) - (r.y + r.height) * scaleY), jsRound (r.x * scaleX),
     jsRound (r.width * scaleX), jsRound (r.height * scaleY),
     jsRound (r.height * scaleY), jsRound (r.width * scaleX)⟩

/-- The scenario encoder of the spec: 250 KB (256000 bytes) at the
initial quality 0.8 and 90 KB (92160 bytes) at every quality up to 0.5,
covering the retry at 0.45. -/
def scenarioEncode : ℚ → Option Blob :=
  fun q => some (if q ≤ 1/2 then 92160 else 256000)

/-- An encoder exhausting the attempt budget: 500 KB (512000 bytes) below
quality 0.46 and 2000 KB (2048000 bytes) from 0.46 up, so with target
1000 KB no attempt is ever within tolerance. -/
def oscEncode : ℚ → Option Blob :=
  fun q => some (if q < 23/50 then 512000 else 2048000)

/-- A per-image encoder for a batch run: no data at all for the 100×100
image, a 100 KB blob for every other canvas. -/
def batchEncode : ℚ × ℚ → ℚ → Option Blob :=
  fun d _ => if d = ((100 : ℚ), (100 : ℚ)) then none else some 102400

/-- A `null` blob from the encoder makes `tryCompress` return without
resolving, whatever the budget and bracket. -/
theorem tryCompress_none {encode : ℚ → Option Blob} {q : ℚ}
    (h : encode q = none) (target : ℚ) (rem : ℕ) (minQ maxQ : ℚ)
    (best : Option Blob) :
    tryCompress encode target rem minQ maxQ best q = ⟨none, best, 1⟩ := by
  rw [tryCompress, h]

/-- An encoded size within the 10% tolerance resolves immediately with
the freshly encoded blob. -/
theorem tryCompress_resolve {encode : ℚ → Option Blob} {q : ℚ} {blob : Blob}
    {target : ℚ} (h : encode q = some blob)
    (htol : |(blob : ℚ) / 1024 - target| ≤ target * (1/10))
    (rem : ℕ) (minQ maxQ : ℚ) (best : Option Blob) :
    tryCompress encode target rem minQ maxQ best q = ⟨some blob, best, 1⟩ := by
  rw [tryCompress, h]
  dsimp only
  exact if_pos htol

/-- An exhausted budget resolves with the freshly encoded blob, ignoring
the tracked best-so-far. -/
theorem tryCompress_exhaust {encode : ℚ → Option Blob} {q : ℚ} {blob : Blob}
    (h : encode q = some blob) (target : ℚ) (minQ maxQ : ℚ)
    (best : Option Blob) :
    tryCompress encode target 0 minQ maxQ best q = ⟨some blob, best, 1⟩ := by
  rw [tryCompress, h]
  dsimp only
  split <;> rfl

/-- Over-target iteration: the upper bound becomes the current quality
and the search retries at the midpoint toward the lower bound. -/
theorem tryCompress_over {encode : ℚ → Option Blob} {q : ℚ} {blob : Blob}
    {target : ℚ} {rem r : ℕ} (hrem : rem = r + 1) (h : encode q = some blob)
    (hno : ¬ |(blob : ℚ) / 1024 - target| ≤ target * (1/10))
    (hover : target < (blob : ℚ) / 1024) (minQ maxQ : ℚ) (best : Option Blob) :
    tryCompress encode target rem minQ maxQ best q
      = bump (tryCompress encode target r minQ q best ((minQ + q) / 2)) := by
  subst hrem
  rw [tryCompress, h]
  dsimp only
  rw [if_neg hno, if_pos hover]

/-- Under-target iteration: the lower bound becomes the current quality,
the blob is remembered as best-so-far, and the search retries at the
midpoint toward the upper bound. -/
theorem tryCompress_under {encode : ℚ → Option Blob} {q : ℚ} {blob : Blob}
    {target : ℚ} {rem r : ℕ} (hrem : rem = r + 1) (h : encode q = some blob)
    (hno : ¬ |(blob : ℚ) / 1024 - target| ≤ target * (1/10))
    (hunder : ¬ target < (blob : ℚ) / 1024) (minQ maxQ : ℚ) (best : Option Blob) :
    tryCompress encode target rem minQ maxQ best q
      = bump (tryCompress encode target r q maxQ (some blob) ((q + maxQ) / 2)) := by
  subst hrem
  rw [tryCompress, h]
  dsimp only
  rw [if_neg hno, if_neg hunder]

/-- Every run performs at most `remaining + 1` encoder invocations. -/
theorem tryCompress_calls_le (encode : ℚ → Option Blob) (target : ℚ) :
    ∀ (rem : ℕ) (minQ maxQ : ℚ) (best : Option Blob) (q : ℚ),
      (tryCompress encode target rem minQ maxQ best q).calls ≤ rem + 1 := by
  intro rem
  induction rem with
  | zero =>
    intro minQ maxQ best q
    cases h : encode q with
    | none => rw [tryCompress_none h]
    | some blob => rw [tryCompress_exhaust h]
  | succ r ih =>
    intro minQ maxQ best q
    cases h : encode q with
    | none => rw [tryCompress_none h]; exact Nat.le_add_left 1 _
    | some blob =>
      by_cases htol : |(blob : ℚ) / 1024 - target| ≤ target * (1/10)
      · rw [tryCompress_resolve h htol]; exact Nat.le_add_left 1 _
      · by_cases hover : target < (blob : ℚ) / 1024
        · rw [tryCompress_over rfl h htol hover]
          exact Nat.succ_le_succ (ih _ _ _ _)
        · rw [tryCompress_under rfl h htol hover]
          exact Nat.succ_le_succ (ih _ _ _ _)

/-- A run whose encoder always produces a blob resolves. -/
theorem tryCompress_resolves (encode : ℚ → Option Blob) (target : ℚ)
    (henc : ∀ q, (encode q).isSome) :
    ∀ (rem : ℕ) (minQ maxQ : ℚ) (best : Option Blob) (q : ℚ),
      (tryCompress encode target rem minQ maxQ best q).resolved.isSome := by
  intro rem
  induction rem with
  | zero =>
    intro minQ maxQ best q
    cases h : encode q with
    | none => have := henc q; rw [h] at this; exact absurd this (by simp)
    | some blob => rw [tryCompress_exhaust h]; rfl
  | succ r ih =>
    intro minQ maxQ best q
    cases h : encode q with
    | none => have := henc q; rw [h] at this; exact absurd this (by simp)
    | some blob =>
      by_cases htol : |(blob : ℚ) / 1024 - target| ≤ target * (1/10)
      · rw [tryCompress_resolve h htol]; rfl
      · by_cases hover : target < (blob : ℚ) / 1024
        · rw [tryCompress_over rfl h htol hover]; exact ih _ _ _ _
        · rw [tryCompress_under rfl h htol hover]; exact ih _ _ _ _

/-- Claim C1 (amended): for every source image and target size, and any
encoder that always returns data, `compressImage` terminates, resolving
with an encoded blob, after at most `maxAttempts + 1 = 11` encoder
invocations (the attempt counter is compared before it is incremented, so
the encode call that observes `attempts = maxAttempts` is the eleventh). -/
theorem compressImage_bounded_and_resolves
    (encodeAt : ℚ × ℚ → ℚ → Option Blob) (w h target initQ : ℚ)
    (henc : ∀ d q, (encodeAt d q).isSome) :
    (compressImage encodeAt w h target initQ).calls ≤ maxAttempts + 1 ∧
    (compressImage encodeAt w h target initQ).resolved.isSome :=
  ⟨tryCompress_calls_le _ target maxAttempts (1/10) 1 none initQ,
   tryCompress_resolves _ target (fun q => henc _ q) maxAttempts (1/10) 1
     none initQ⟩

theorem compressImage_bounded_and_resolves_witness :
    (compressImage (fun _ _ => some 102400) 100 100 100 (4/5)).calls
        ≤ maxAttempts + 1 ∧
    (compressImage (fun _ _ => some 102400) 100 100 100 (4/5)).resolved.isSome :=
  compressImage_bounded_and_resolves (fun _ _ => some 102400) 100 100 100 (4/5)
    (fun _ _ => rfl)

/-- Claim C1 counterexample: with a constant 1000 KB encoder and target
1 KB the tolerance never holds, and the encoder is invoked 11 times -
more than `MAX_ATTEMPTS = 10`. -/
theorem compressImage_eleven_calls :
    (compressImage (fun _ _ => some 1024000) 100 100 1 (4/5)).calls = 11 ∧
    ¬ (compressImage (fun _ _ => some 1024000) 100 100 1 (4/5)).calls
        ≤ maxAttempts := by
  have h : (compressImage (fun _ _ => some 1024000) 100 100 1 (4/5)).calls = 11 := by
    norm_num [compressImage, resizeDims, tryCompress, maxAttempts, bump]
  exact ⟨h, by rw [h]; norm_num [maxAttempts]⟩

/-- Claim C2: each iteration of the compression search narrows the
bracket exactly as specified - over target: new upper bound = current
quality, retry at `(minQuality + quality) / 2`; under target: new lower
bound = current quality, blob remembered as best-so-far, retry at
`(quality + maxQuality) / 2`; and the search stops as soon as
`|size - target| ≤ 0.1 * target`.  The spec scenario: target 100 KB,
250 KB at quality 0.8 with `minQuality` still 0.1 retries at
`(0.1 + 0.8) / 2 = 0.45`, and a 90 KB result there stops the search,
returning that blob after exactly two encodes. -/
theorem searchIteration :
    (∀ (encode : ℚ → Option Blob) (target : ℚ) (rem r : ℕ) (minQ maxQ : ℚ)
        (best : Option Blob) (q : ℚ) (blob : Blob),
        rem = r + 1 → encode q = some blob →
        ¬ |(blob : ℚ) / 1024 - target| ≤ target * (1/10) →
        (target < (blob : ℚ) / 1024 →
          tryCompress encode target rem minQ maxQ best q
            = bump (tryCompress encode target r minQ q best ((minQ + q) / 2))) ∧
        (¬ target < (blob : ℚ) / 1024 →
          tryCompress encode target rem minQ maxQ best q
            = bump (tryCompress encode target r q maxQ (some blob)
                ((q + maxQ) / 2)))) ∧
    (∀ (encode : ℚ → Option Blob) (target : ℚ) (rem : ℕ) (minQ maxQ : ℚ)
        (best : Option Blob) (q : ℚ) (blob : Blob),
        encode q = some blob →
        |(blob : ℚ) / 1024 - target| ≤ target * (1/10) →
        tryCompress encode target rem minQ maxQ best q = ⟨some blob, best, 1⟩) ∧
    (((1 : ℚ)/10 + 4/5) / 2 = 9/20 ∧
      tryCompress scenarioEncode 100 maxAttempts (1/10) 1 none (4/5)
        = ⟨some 92160, none, 2⟩) := by
  refine ⟨?_, ?_, by norm_num, ?_⟩
  · intro encode target rem r minQ maxQ best q blob hrem h htol
    exact ⟨fun hover => tryCompress_over hrem h htol hover minQ maxQ best,
           fun hunder => tryCompress_under hrem h htol hunder minQ maxQ best⟩
  · intro encode target rem minQ maxQ best q blob h htol
    exact tryCompress_resolve h htol rem minQ maxQ best
  · have h1 : scenarioEncode (4/5) = some 256000 := by norm_num [scenarioEncode]
    have h2 : scenarioEncode (9/20) = some 92160 := by norm_num [scenarioEncode]
    rw [tryCompress_over (r := 9) (by norm_num [maxAttempts]) h1 (by norm_num)
      (by norm_num)]
    norm_num
    rw [tryCompress_resolve h2 (by norm_num)]
    rfl

theorem searchIteration_witness :
    tryCompress scenarioEncode 100 maxAttempts (1/10) 1 none (4/5)
      = bump (tryCompress scenarioEncode 100 9 (1/10) (4/5) none
          (((1 : ℚ)/10 + 4/5) / 2)) :=
  ((searchIteration.1 scenarioEncode 100 maxAttempts 9 (1/10) 1 none (4/5)
      256000 (by norm_num [maxAttempts]) (by norm_num [scenarioEncode])
      (by norm_num)).1 (by norm_num))

/-- Claim C3: an exhausted attempt budget resolves with the blob of the
current (last) encode attempt, whatever the tracked best-so-far is; in a
full run where the budget runs out, the returned blob is the eleventh
2000 KB blob of the eleventh attempt even though a 500 KB best-so-far blob was
recorded on under-target attempts. -/
theorem exhaustReturnsLast :
    (∀ (encode : ℚ → Option Blob) (target minQ maxQ : ℚ)
        (best : Option Blob) (q : ℚ) (blob : Blob), encode q = some blob →
        tryCompress encode target 0 minQ maxQ best q = ⟨some blob, best, 1⟩) ∧
    (tryCompress oscEncode 1000 maxAttempts (1/10) 1 none (4/5)
        = ⟨some 2048000, some 512000, 11⟩ ∧
      (tryCompress oscEncode 1000 maxAttempts (1/10) 1 none (4/5)).resolved
        ≠ (tryCompress oscEncode 1000 maxAttempts (1/10) 1 none (4/5)).best) := by
  have run : tryCompress oscEncode 1000 maxAttempts (1/10) 1 none (4/5)
      = ⟨some 2048000, some 512000, 11⟩ := by
    have eOver : ∀ q : ℚ, 23/50 ≤ q → oscEncode q = some 2048000 := by
      intro q hq; simp [oscEncode, not_lt.mpr hq]
    have eUnder : ∀ q : ℚ, q < 23/50 → oscEncode q = some 512000 := by
      intro q hq; simp [oscEncode, hq]
    rw [tryCompress_over (r := 9) (by norm_num [maxAttempts])
      (eOver _ (by norm_num)) (by norm_num) (by norm_num)]
    norm_num
    rw [tryCompress_under (r := 8) (by norm_num) (eUnder _ (by norm_num))
      (by norm_num) (by norm_num)]
    norm_num
    rw [tryCompress_over (r := 7) (by norm_num) (eOver _ (by norm_num))
      (by norm_num) (by norm_num)]
    norm_num
    rw [tryCompress_over (r := 6) (by norm_num) (eOver _ (by norm_num))
      (by norm_num) (by norm_num)]
    norm_num
    rw [tryCompress_over (r := 5) (by norm_num) (eOver _ (by norm_num))
      (by norm_num) (by norm_num)]
    norm_num
    rw [tryCompress_over (r := 4) (by norm_num) (eOver _ (by norm_num))
      (by norm_num) (by norm_num)]
    norm_num
    rw [tryCompress_over (r := 3) (by norm_num) (eOver _ (by norm_num))
      (by norm_num) (by norm_num)]
    norm_num
    rw [tryCompress_under (r := 2) (by norm_num) (eUnder _ (by norm_num))
      (by norm_num) (by norm_num)]
    norm_num
    rw [tryCompress_under (r := 1) (by norm_num) (eUnder _ (by norm_num))
      (by norm_num) (by norm_num)]
    norm_num
    rw [tryCompress_under (r := 0) (by norm_num) (eUnder _ (by norm_num))
      (by norm_num) (by norm_num)]
    norm_num
    rw [tryCompress_exhaust (eOver _ (by norm_num))]
    rfl
  refine ⟨?_, run, by rw [run]; simp⟩
  intro encode target minQ maxQ best q blob h
  exact tryCompress_exhaust h target minQ maxQ best

theorem exhaustReturnsLast_witness :
    tryCompress oscEncode 1000 0 (1/10) 1 (some 7) (4/5)
      = ⟨some 2048000, some 7, 1⟩ :=
  exhaustReturnsLast.1 oscEncode 1000 (1/10) 1 (some 7) (4/5) 2048000
    (by norm_num [oscEncode])

/-- Claim C9 exhibit: a batch of two images where the encoder returns no
data for the first image.  The promise of the first image never resolves, so
`handleCompress` awaits forever and the second image - although its own
compression would succeed immediately - is never processed: the batch
result is empty. -/
theorem batchStallsOnNullBlob :
    handleCompress batchEncode 100 (4/5) [((100 : ℚ), (100 : ℚ)), (200, 200)]
        = [] ∧
    (compressImage batchEncode 100 100 100 (4/5)).resolved = none ∧
    (compressImage batchEncode 200 200 100 (4/5)).resolved = some 102400 := by
  have e1 : batchEncode (resizeDims 100 100) (4/5) = none := by
    norm_num [batchEncode, resizeDims]
  have e2 : batchEncode (resizeDims 200 200) (4/5) = some 102400 := by
    norm_num [batchEncode, resizeDims]
  have h1 : compressImage batchEncode 100 100 100 (4/5) = ⟨none, none, 1⟩ := by
    rw [compressImage, tryCompress_none e1]
  have h2 : compressImage batchEncode 200 200 100 (4/5)
      = ⟨some 102400, none, 1⟩ := by
    rw [compressImage, tryCompress_resolve e2 (by norm_num)]
  exact ⟨by simp [handleCompress, h1], by rw [h1], by rw [h2]⟩

/-- Claim C10: before the quality search, `compressImage` rescales any
image with a dimension above 1920 so that the larger dimension becomes
exactly 1920 and the aspect ratio is preserved; images within 1920×1920
are untouched; and the search encodes the rescaled canvas. -/
theorem resizeDims_spec (w h : ℚ) (hw : 0 < w) (hh : 0 < h) :
    (w ≤ 1920 → h ≤ 1920 → resizeDims w h = (w, h)) ∧
    (1920 < w ∨ 1920 < h →
      (resizeDims w h).1 ≤ 1920 ∧ (resizeDims w h).2 ≤ 1920 ∧
      max (resizeDims w h).1 (resizeDims w h).2 = 1920 ∧
      (resizeDims w h).1 * h = w * (resizeDims w h).2 ∧
      (h < w → resizeDims w h = (1920, h * 1920 / w)) ∧
      (w ≤ h → resizeDims w h = (w * 1920 / h, 1920))) ∧
    (∀ (encodeAt : ℚ × ℚ → ℚ → Option Blob) (target initQ : ℚ),
      compressImage encodeAt w h target initQ
        = tryCompress (encodeAt (resizeDims w h)) target maxAttempts (1/10) 1
            none initQ) := by
  refine ⟨?_, ?_, fun _ _ _ => rfl⟩
  · intro h1 h2
    rw [resizeDims, if_neg (by push_neg; exact ⟨h1, h2⟩)]
  · intro hcond
    by_cases hwh : h < w
    · have hw19 : 1920 < w := hcond.elim id fun h19 => h19.trans hwh
      have heq : resizeDims w h = (1920, h * 1920 / w) := by
        rw [resizeDims, if_pos hcond, if_pos hwh]
      rw [heq]
      have hle : h * 1920 / w ≤ 1920 := by
        rw [div_le_iff₀ (by linarith)]; nlinarith
      refine ⟨le_refl _, hle, max_eq_left hle, ?_, fun _ => rfl,
        fun hcontra => absurd hwh (not_lt.mpr hcontra)⟩
      field_simp
      ring
    · have hwle : w ≤ h := not_lt.mp hwh
      have hh19 : 1920 < h := hcond.elim (fun h19 => h19.trans_le hwle) id
      have heq : resizeDims w h = (w * 1920 / h, 1920) := by
        rw [resizeDims, if_pos hcond, if_neg hwh]
      rw [heq]
      have hle : w * 1920 / h ≤ 1920 := by
        rw [div_le_iff₀ (by linarith)]; nlinarith
      refine ⟨hle, le_refl _, max_eq_right hle, ?_,
        fun hcontra => absurd hcontra (not_lt.mpr hwle), fun _ => rfl⟩
      field_simp

theorem resizeDims_spec_witness :
    resizeDims 3840 1080 = (1920, 540) ∧
    max (resizeDims 3840 1080).1 (resizeDims 3840 1080).2 = 1920 := by
  have hmain := (resizeDims_spec 3840 1080 (by norm_num) (by norm_num)).2.1
    (Or.inl (by norm_num))
  have heq := hmain.2.2.2.2.1 (by norm_num)
  refine ⟨?_, hmain.2.2.1⟩
  rw [heq]; norm_num

/-- When the position clamp does not engage, the clamped position is
exactly `pos + d`. -/
theorem clampEq {pos size d : ℚ} (h1 : 0 ≤ pos + d) (h2 : d ≤ size - 50) :
    max 0 (min (pos + d) (pos + size - 50)) = pos + d := by
  rw [min_eq_left (by linarith), max_eq_right h1]

/-- When the delta leaves at least `MIN_SIZE`, the floored size is
exactly `size - d`. -/
theorem shrinkEq {size d : ℚ} (h2 : d ≤ size - 50) :
    max 50 (size - d) = size - d :=
  max_eq_right (by linarith)

/-- Every mutation of `handleMouseMove` keeps `width,height ≥ 50`
whenever the incoming rectangle satisfies it: each resize case wraps the
changed dimension in `Math.max(50, ...)` and a drag never touches the
dimensions. -/
theorem applyMutation_minSized (canW canH : ℚ) (r : CropArea) (m : Mutation)
    (hr : minSized r) : minSized (applyMutation canW canH r m) := by
  obtain ⟨hw, hh⟩ := hr
  cases m with
  | drag dX dY => exact ⟨hw, hh⟩
  | resize hd dX dY =>
    cases hd with
    | nw => exact ⟨le_max_left _ _, le_max_left _ _⟩
    | ne => exact ⟨le_max_left _ _, le_max_left _ _⟩
    | sw => exact ⟨le_max_left _ _, le_max_left _ _⟩
    | se => exact ⟨le_max_left _ _, le_max_left _ _⟩
    | n => exact ⟨hw, le_max_left _ _⟩
    | s => exact ⟨hw, le_max_left _ _⟩
    | e => exact ⟨le_max_left _ _, hh⟩
    | w => exact ⟨le_max_left _ _, hh⟩

/-- Claim C4 (amended): any sequence of resize or drag mutations keeps
`width,height ≥ 50` once it holds, and the initial crop rectangle
satisfies it whenever both canvas dimensions are at least 100 (its side
is `min(200, canvasW/2, canvasH/2)`). -/
theorem minSizeInvariant :
    (∀ (canW canH : ℚ) (r : CropArea) (ms : List Mutation), minSized r →
      minSized (ms.foldl (applyMutation canW canH) r)) ∧
    (∀ canW canH : ℚ, 100 ≤ canW → 100 ≤ canH →
      minSized (initialCropArea canW canH)) := by
  constructor
  · intro canW canH r ms
    induction ms generalizing r with
    | nil => exact fun hr => hr
    | cons m rest ih =>
      intro hr
      exact ih _ (applyMutation_minSized canW canH r m hr)
  · intro canW canH h1 h2
    have hs : (50 : ℚ) ≤ min 200 (min (canW * (1/2)) (canH * (1/2))) :=
      le_min (by norm_num) (le_min (by linarith) (by linarith))
    exact ⟨hs, hs⟩

theorem minSizeInvariant_witness :
    minSized (List.foldl (applyMutation 600 400) ⟨50, 50, 200, 200⟩
        [Mutation.drag 10 10]) ∧
    minSized (initialCropArea 600 400) :=
  ⟨minSizeInvariant.1 600 400 ⟨50, 50, 200, 200⟩ [Mutation.drag 10 10]
      (by norm_num [minSized]),
   minSizeInvariant.2 600 400 (by norm_num) (by norm_num)⟩

/-- Claim C4 counterexample: a 60×60 image gives a 60×60 canvas, whose
initial crop rectangle has side `min(200, 30, 30) = 30 < 50`, violating
the `MIN_SIZE` invariant right after creation. -/
theorem initialCropTooSmall :
    (initialCropArea (canvasDims 60 60).1 (canvasDims 60 60).2).width = 30 ∧
    ¬ minSized (initialCropArea (canvasDims 60 60).1 (canvasDims 60 60).2) := by
  have hscale : canvasScale 60 60 = 1 := by
    norm_num [canvasScale, min_def]
  have hdims : canvasDims 60 60 = (60, 60) := by
    norm_num [canvasDims, hscale]
  rw [hdims]
  norm_num [initialCropArea, minSized, min_def]

/-- Claim C5 (amended): a resize keeps the rectangle inside the canvas,
keeps `width,height ≥ 50`, and leaves the edges opposite the dragged
handle exactly where they were - provided that, for a handle moving the
left or top edge, the position clamp does not engage; handles that only
grow to the right/bottom (`s`, `e`, `se`) need no proviso because their
sizes are clamped against the canvas. -/
theorem applyResizeSafe (canW canH : ℚ) (hd : Handle) (r : CropArea)
    (dX dY : ℚ) (hb : inBounds canW canH r) (hs : minSized r)
    (hsafe : resizeSafe hd r dX dY) :
    inBounds canW canH (applyResize canW canH hd r dX dY) ∧
    minSized (applyResize canW canH hd r dX dY) ∧
    oppositeEdgesFixed hd r (applyResize canW canH hd r dX dY) := by
  obtain ⟨hx, hy, hxw, hyh⟩ := hb
  obtain ⟨hw, hh⟩ := hs
  cases hd with
  | nw =>
    simp only [resizeSafe, noClampX, noClampY] at hsafe
    obtain ⟨⟨hx1, hx2⟩, hy1, hy2⟩ := hsafe
    simp only [applyResize, inBounds, minSized, oppositeEdgesFixed]
    rw [clampEq hx1 hx2, clampEq hy1 hy2, shrinkEq hx2, shrinkEq hy2]
    and_intros <;> first | trivial | linarith
  | ne =>
    simp only [resizeSafe, noClampY] at hsafe
    obtain ⟨hy1, hy2⟩ := hsafe
    have g1 : (50 : ℚ) ≤ max 50 (min (r.width + dX) (canW - r.x)) :=
      le_max_left _ _
    have g2 : max 50 (min (r.width + dX) (canW - r.x)) ≤ canW - r.x :=
      max_le (by linarith) (min_le_right _ _)
    simp only [applyResize, inBounds, minSized, oppositeEdgesFixed]
    rw [clampEq hy1 hy2, shrinkEq hy2]
    and_intros <;> first | trivial | linarith
  | sw =>
    simp only [resizeSafe, noClampX] at hsafe
    obtain ⟨hx1, hx2⟩ := hsafe
    have g1 : (50 : ℚ) ≤ max 50 (min (r.height + dY) (canH - r.y)) :=
      le_max_left _ _
    have g2 : max 50 (min (r.height + dY) (canH - r.y)) ≤ canH - r.y :=
      max_le (by linarith) (min_le_right _ _)
    simp only [applyResize, inBounds, minSized, oppositeEdgesFixed]
    rw [clampEq hx1 hx2, shrinkEq hx2]
    and_intros <;> first | trivial | linarith
  | se =>
    have gw1 : (50 : ℚ) ≤ max 50 (min (r.width + dX) (canW - r.x)) :=
      le_max_left _ _
    have gw2 : max 50 (min (r.width + dX) (canW - r.x)) ≤ canW - r.x :=
      max_le (by linarith) (min_le_right _ _)
    have gh1 : (50 : ℚ) ≤ max 50 (min (r.height + dY) (canH - r.y)) :=
      le_max_left _ _
    have gh2 : max 50 (min (r.height + dY) (canH - r.y)) ≤ canH - r.y :=
      max_le (by linarith) (min_le_right _ _)
    simp only [applyResize, inBounds, minSized, oppositeEdgesFixed]
    and_intros <;> first | trivial | linarith
  | n =>
    simp only [resizeSafe, noClampY] at hsafe
    obtain ⟨hy1, hy2⟩ := hsafe
    simp only [applyResize, inBounds, minSized, oppositeEdgesFixed]
    rw [clampEq hy1 hy2, shrinkEq hy2]
    and_intros <;> first | trivial | linarith
  | s =>
    have g1 : (50 : ℚ) ≤ max 50 (min (r.height + dY) (canH - r.y)) :=
      le_max_left _ _
    have g2 : max 50 (min (r.height + dY) (canH - r.y)) ≤ canH - r.y :=
      max_le (by linarith) (min_le_right _ _)
    simp only [applyResize, inBounds, minSized, oppositeEdgesFixed]
    and_intros <;> first | trivial | linarith
  | e =>
    have g1 : (50 : ℚ) ≤ max 50 (min (r.width + dX) (canW - r.x)) :=
      le_max_left _ _
    have g2 : max 50 (min (r.width + dX) (canW - r.x)) ≤ canW - r.x :=
      max_le (by linarith) (min_le_right _ _)
    simp only [applyResize, inBounds, minSized, oppositeEdgesFixed]
    and_intros <;> first | trivial | linarith
  | w =>
    simp only [resizeSafe, noClampX] at hsafe
    obtain ⟨hx1, hx2⟩ := hsafe
    simp only [applyResize, inBounds, minSized, oppositeEdgesFixed]
    rw [clampEq hx1 hx2, shrinkEq hx2]
    and_intros <;> first | trivial | linarith

theorem applyResizeSafe_witness :
    inBounds 600 400 (applyResize 600 400 Handle.se ⟨10, 10, 100, 100⟩ 5 7) ∧
    minSized (applyResize 600 400 Handle.se ⟨10, 10, 100, 100⟩ 5 7) ∧
    oppositeEdgesFixed Handle.se ⟨10, 10, 100, 100⟩
      (applyResize 600 400 Handle.se ⟨10, 10, 100, 100⟩ 5 7) :=
  applyResizeSafe 600 400 Handle.se ⟨10, 10, 100, 100⟩ 5 7
    (by norm_num [inBounds]) (by norm_num [minSized]) trivial

/-- Claim C5 counterexample: dragging the `nw` handle of the rectangle
`(10, 10, 100, 100)` by `(-1000, 0)` on a 600×400 canvas clamps `x` at 0
but computes the width from the unclamped delta, producing width 1100:
the rectangle escapes the canvas and the opposite (right) edge moves from
110 to 1100. -/
theorem applyResizeEscapes :
    (applyResize 600 400 Handle.nw ⟨10, 10, 100, 100⟩ (-1000) 0).width
        = 1100 ∧
    ¬ inBounds 600 400 (applyResize 600 400 Handle.nw ⟨10, 10, 100, 100⟩
        (-1000) 0) ∧
    (applyResize 600 400 Handle.nw ⟨10, 10, 100, 100⟩ (-1000) 0).x
        + (applyResize 600 400 Handle.nw ⟨10, 10, 100, 100⟩ (-1000) 0).width
      ≠ (10 : ℚ) + 100 := by
  have hr : applyResize 600 400 Handle.nw ⟨10, 10, 100, 100⟩ (-1000) 0
      = ⟨0, 10, 1100, 100⟩ := by
    simp only [applyResize]
    norm_num [min_def, max_def]
  rw [hr]
  norm_num [inBounds]

/-- Claim C8: a drag changes only the position - clamped into
`[0, bounds - size]` - and preserves the width and height exactly, even
when the unclamped position would exceed the bounds. -/
theorem dragPreservesSize (canW canH : ℚ) (r : CropArea) (dX dY : ℚ)
    (hwc : r.width ≤ canW) (hhc : r.height ≤ canH) :
    (dragMove canW canH r dX dY).width = r.width ∧
    (dragMove canW canH r dX dY).height = r.height ∧
    0 ≤ (dragMove canW canH r dX dY).x ∧
    (dragMove canW canH r dX dY).x ≤ canW - r.width ∧
    0 ≤ (dragMove canW canH r dX dY).y ∧
    (dragMove canW canH r dX dY).y ≤ canH - r.height ∧
    (dragMove canW canH r dX dY).x = max 0 (min (r.x + dX) (canW - r.width)) ∧
    (dragMove canW canH r dX dY).y = max 0 (min (r.y + dY) (canH - r.height))
    := by
  have gx : max 0 (min (r.x + dX) (canW - r.width)) ≤ canW - r.width :=
    max_le (by linarith) (min_le_right _ _)
  have gy : max 0 (min (r.y + dY) (canH - r.height)) ≤ canH - r.height :=
    max_le (by linarith) (min_le_right _ _)
  simp only [dragMove]
  and_intros <;> first
    | trivial
    | exact le_max_left _ _

theorem dragPreservesSize_witness :
    (dragMove 600 400 ⟨50, 50, 200, 200⟩ 1000 (-1000)).width = 200 ∧
    (dragMove 600 400 ⟨50, 50, 200, 200⟩ 1000 (-1000)).x ≤ 600 - 200 ∧
    0 ≤ (dragMove 600 400 ⟨50, 50, 200, 200⟩ 1000 (-1000)).y := by
  have h := dragPreservesSize 600 400 ⟨50, 50, 200, 200⟩ 1000 (-1000)
    (by norm_num) (by norm_num)
  exact ⟨h.1, h.2.2.2.1, h.2.2.2.2.1⟩

/-- Claim C6 (amended): the output buffer dimensions are the crop
dimensions of the crop rectangle mapped into source space by the
`source / display` scale factors and rounded - in `ImageCropper.tsx`
identically for all four rotations, and in the second cropper source the
same at 0°/180° but swapped at 90°/270°; they equal the display-space
`(rect.width, rect.height)` only when the scale factors are 1. -/
theorem cropOutputDims (imgW imgH canW canH : ℤ) (r : CropArea) (rot : Rot) :
    ((tsxCrop imgW imgH canW canH r rot).outW
        = jsRound (r.width * ((imgW : ℚ) / (canW : ℚ))) ∧
      (tsxCrop imgW imgH canW canH r rot).outH
        = jsRound (r.height * ((imgH : ℚ) / (canH : ℚ)))) ∧
    ((rot = Rot.r0 ∨ rot = Rot.r180) →
      (part000Crop imgW imgH canW canH r rot).outW
          = jsRound (r.width * ((imgW : ℚ) / (canW : ℚ))) ∧
        (part000Crop imgW imgH canW canH r rot).outH
          = jsRound (r.height * ((imgH : ℚ) / (canH : ℚ)))) ∧
    ((rot = Rot.r90 ∨ rot = Rot.r270) →
      (part000Crop imgW imgH canW canH r rot).outW
          = jsRound (r.height * ((imgH : ℚ) / (canH : ℚ))) ∧
        (part000Crop imgW imgH canW canH r rot).outH
          = jsRound (r.width * ((imgW : ℚ) / (canW : ℚ)))) := by
  cases rot <;> simp [tsxCrop, part000Crop]

theorem cropOutputDims_witness :
    (tsxCrop 1200 800 600 400 ⟨50, 50, 200, 200⟩ Rot.r90).outW
      = jsRound ((200 : ℚ) * ((1200 : ℚ) / 600)) ∧
    (part000Crop 1200 800 600 400 ⟨50, 50, 200, 200⟩ Rot.r90).outW
      = jsRound ((200 : ℚ) * ((800 : ℚ) / 400)) :=
  ⟨(cropOutputDims 1200 800 600 400 ⟨50, 50, 200, 200⟩ Rot.r90).1.1,
   ((cropOutputDims 1200 800 600 400 ⟨50, 50, 200, 200⟩ Rot.r90).2.2
      (Or.inl rfl)).1⟩

/-- Claim C6 counterexample: a 200×200 display rectangle on a 600×400
canvas over a 1200×800 source (scale factor 2) produces a 400-pixel-wide
output buffer, not the display-space 200. -/
theorem cropOutputNotDisplaySized :
    (tsxCrop 1200 800 600 400 ⟨50, 50, 200, 200⟩ Rot.r0).outW = 400 ∧
    jsRound ((⟨50, 50, 200, 200⟩ : CropArea).width) = 200 ∧
    ((400 : ℤ) ≠ 200) := by
  refine ⟨?_, ?_, by norm_num⟩
  · norm_num [tsxCrop, jsRound]
  · norm_num [jsRound]

/-- Claim C7: the two `handleCrop` implementations disagree at 90°: there
is a crop rectangle, canvas size and source size for which they extract
source regions with different vertical offsets (`ImageCropper.tsx`
subtracts the already-rounded `cropX` and `cropWidth` from `img.width`,
the second source rounds after subtracting). -/
theorem cropImplsDiverge :
    ∃ (imgW imgH canW canH : ℤ) (r : CropArea),
      (tsxCrop imgW imgH canW canH r Rot.r90).srcY
        ≠ (part000Crop imgW imgH canW canH r Rot.r90).srcY := by
  refine ⟨900, 600, 600, 400, ⟨1, 0, 51, 50⟩, ?_⟩
  have h1 : (tsxCrop 900 600 600 400 ⟨1, 0, 51, 50⟩ Rot.r90).srcY = 821 := by
    norm_num [tsxCrop, jsRound]
  have h2 : (part000Crop 900 600 600 400 ⟨1, 0, 51, 50⟩ Rot.r90).srcY = 822 := by
    norm_num [part000Crop, jsRound]
  rw [h1, h2]
  norm_num
